import Mathlib

/-
Shallow embedding of the kpiComp rating engine (src/rating.py).

Python floats are modelled as real numbers.  The Python `round(x, n)` is
modelled as rounding `x * 10^n` to the nearest integer (Python rounds
half-to-even on binary floats; no statement below evaluates `round` at a
tie, so the tie-breaking rule is irrelevant to every theorem here).
Python dicts whose values are `Optional[float]` are modelled as functions
`String → Option ℝ` when only `.get` access matters, and as association
lists `List (String × _)` for dicts built by the engine itself, where the
exact key set is observable.
-/

-- KPIConfig dataclass (src/rating.py lines 34-47)
structure KPIConfig where
  key : String
  display_name : String
  weight : ℝ
  lower_is_better : Bool
  abs_best : ℝ
  abs_worst : ℝ
  format_as_pct : Bool
  format_decimals : ℕ

-- KPI_CONFIGS catalog (src/rating.py lines 50-105)
noncomputable def KPI_CONFIGS : List KPIConfig :=
  [ ⟨"trailingPE", "P/E Ratio (TTM)", 0.15, true, 5.0, 60.0, false, 2⟩,
    ⟨"forwardPE", "Forward P/E", 0.12, true, 5.0, 50.0, false, 2⟩,
    ⟨"priceToBook", "P/B Ratio", 0.10, true, 0.5, 20.0, false, 2⟩,
    ⟨"enterpriseToEbitda", "EV/EBITDA", 0.12, true, 3.0, 40.0, false, 2⟩,
    ⟨"debtToEquity", "Debt/Equity", 0.10, true, 0.0, 300.0, false, 2⟩,
    ⟨"returnOnEquity", "ROE", 0.12, false, 0.40, -0.10, true, 2⟩,
    ⟨"profitMargins", "Profit Margin", 0.10, false, 0.40, -0.10, true, 2⟩,
    ⟨"revenueGrowth", "Revenue Growth", 0.09, false, 0.50, -0.20, true, 2⟩,
    ⟨"currentRatio", "Current Ratio", 0.05, false, 3.0, 0.3, false, 2⟩,
    ⟨"dividendYield", "Dividend Yield", 0.05, false, 0.06, 0.0, true, 2⟩ ]

-- The Python round(x, n) for floats, modelled over ℝ.
noncomputable def pyround (n : ℕ) (x : ℝ) : ℝ :=
  ((round (x * 10 ^ n) : ℤ) : ℝ) / 10 ^ n

-- _score_absolute (src/rating.py lines 146-164)
noncomputable def score_absolute (value : ℝ) (cfg : KPIConfig) : ℝ :=
  if cfg.lower_is_better then
    if value ≤ cfg.abs_best then 1.0
    else if value ≥ cfg.abs_worst then 0.0
    else 1.0 - (value - cfg.abs_best) / (cfg.abs_worst - cfg.abs_best)
  else
    if value ≥ cfg.abs_best then 1.0
    else if value ≤ cfg.abs_worst then 0.0
    else (value - cfg.abs_worst) / (cfg.abs_best - cfg.abs_worst)

-- _score_relative (src/rating.py lines 167-185); the Python parameter
-- `sector_avg` may be None, hence `Option ℝ` here.
noncomputable def score_relative (value : ℝ) (sector_avg : Option ℝ)
    (cfg : KPIConfig) : ℝ :=
  match sector_avg with
  | none => 0.5
  | some avg =>
    if avg = 0 then 0.5
    else
      let pct_diff := (value - avg) / |avg|
      let pct_signed := if cfg.lower_is_better then -pct_diff else pct_diff
      let score := 1.0 / (1.0 + Real.exp (-4.0 * pct_signed))
      max 0.0 (min 1.0 score)

-- Per-KPI score entry written into kpi_scores (src/rating.py lines 218, 225-229)
structure KPIScoreEntry where
  absolute : Option ℝ
  relative : Option ℝ
  combined : Option ℝ

-- The dict returned by calculate_rating (src/rating.py lines 246-251)
structure RatingResult where
  overall_rating : ℝ
  absolute_score : ℝ
  relative_score : ℝ
  kpi_scores : List (String × KPIScoreEntry)

-- One iteration of the loop in calculate_rating (src/rating.py lines 213-233);
-- the accumulator is (total_abs_weighted, total_rel_weighted, total_weight_used, kpi_scores).
noncomputable def rating_step (stock_kpis sector_averages : String → Option ℝ)
    (absolute_weight relative_weight : ℝ)
    (acc : ℝ × ℝ × ℝ × List (String × KPIScoreEntry)) (cfg : KPIConfig) :
    ℝ × ℝ × ℝ × List (String × KPIScoreEntry) :=
  match stock_kpis cfg.key with
  | none => (acc.1, acc.2.1, acc.2.2.1, acc.2.2.2 ++ [(cfg.key, ⟨none, none, none⟩)])
  | some val =>
    let abs_score := score_absolute val cfg
    let rel_score :=
      match sector_averages cfg.key with
      | some avg => score_relative val (some avg) cfg
      | none => (0.5 : ℝ)
    let combined := absolute_weight * abs_score + relative_weight * rel_score
    (acc.1 + abs_score * cfg.weight,
     acc.2.1 + rel_score * cfg.weight,
     acc.2.2.1 + cfg.weight,
     acc.2.2.2 ++ [(cfg.key,
       ⟨some (pyround 3 abs_score), some (pyround 3 rel_score), some (pyround 3 combined)⟩)])

-- calculate_rating (src/rating.py lines 188-251); weight parameters passed
-- explicitly (Python defaults are 0.40 and 0.60).
noncomputable def calculate_rating (stock_kpis sector_averages : String → Option ℝ)
    (absolute_weight relative_weight : ℝ) : RatingResult :=
  let acc := KPI_CONFIGS.foldl
    (rating_step stock_kpis sector_averages absolute_weight relative_weight)
    (0, 0, 0, [])
  let total_abs_weighted := if acc.2.2.1 > 0 then acc.1 / acc.2.2.1 else acc.1
  let total_rel_weighted := if acc.2.2.1 > 0 then acc.2.1 / acc.2.2.1 else acc.2.1
  let overall_raw := absolute_weight * total_abs_weighted + relative_weight * total_rel_weighted
  { overall_rating := pyround 1 (1.0 + overall_raw * 9.0)
    absolute_score := pyround 1 (1.0 + total_abs_weighted * 9.0)
    relative_score := pyround 1 (1.0 + total_rel_weighted * 9.0)
    kpi_scores := acc.2.2.2 }

-- compute_sector_averages (src/rating.py lines 128-143); Python sorts the
-- collected values ascending in place, embedded here as insertionSort.
noncomputable def compute_sector_averages (all_kpis : List (String → Option ℝ)) :
    List (String × Option ℝ) :=
  KPI_CONFIGS.map fun cfg =>
    let values := all_kpis.filterMap fun kpi => kpi cfg.key
    match values with
    | [] => (cfg.key, none)
    | _ :: _ =>
      let sorted := List.insertionSort (· ≤ ·) values
      let mid := values.length / 2
      if values.length % 2 = 0 then
        (cfg.key, some ((sorted.getD (mid - 1) 0 + sorted.getD mid 0) / 2))
      else
        (cfg.key, some (sorted.getD mid 0))

-- Python dict .get on an engine-built dict (missing key yields None).
def dget {α : Type} (d : List (String × α)) (k : String) : Option α :=
  d.lookup k

-- ### Decomposition of the calculate_rating loop ###

-- The relative score the loop uses for a present stock value
-- (src/rating.py line 222: `_score_relative(val, avg, cfg) if avg is not None else 0.5`).
noncomputable def rel_score_used (sector_averages : String → Option ℝ) (val : ℝ)
    (cfg : KPIConfig) : ℝ :=
  match sector_averages cfg.key with
  | some avg => score_relative val (some avg) cfg
  | none => (0.5 : ℝ)

-- The contribution of one KPI to the three running totals
-- (total_abs_weighted, total_rel_weighted, total_weight_used).
noncomputable def kpi_contrib (stock_kpis sector_averages : String → Option ℝ)
    (cfg : KPIConfig) : ℝ × ℝ × ℝ :=
  match stock_kpis cfg.key with
  | none => (0, 0, 0)
  | some val =>
    (score_absolute val cfg * cfg.weight,
     rel_score_used sector_averages val cfg * cfg.weight,
     cfg.weight)

-- The kpi_scores entry written for one KPI.
noncomputable def kpi_entry (stock_kpis sector_averages : String → Option ℝ)
    (absolute_weight relative_weight : ℝ) (cfg : KPIConfig) : KPIScoreEntry :=
  match stock_kpis cfg.key with
  | none => ⟨none, none, none⟩
  | some val =>
    ⟨some (pyround 3 (score_absolute val cfg)),
     some (pyround 3 (rel_score_used sector_averages val cfg)),
     some (pyround 3 (absolute_weight * score_absolute val cfg +
       relative_weight * rel_score_used sector_averages val cfg))⟩

lemma rating_step_eq (s v : String → Option ℝ) (aw rw : ℝ)
    (acc : ℝ × ℝ × ℝ × List (String × KPIScoreEntry)) (cfg : KPIConfig) :
    rating_step s v aw rw acc cfg =
      (acc.1 + (kpi_contrib s v cfg).1,
       acc.2.1 + (kpi_contrib s v cfg).2.1,
       acc.2.2.1 + (kpi_contrib s v cfg).2.2,
       acc.2.2.2 ++ [(cfg.key, kpi_entry s v aw rw cfg)]) := by
  cases h : s cfg.key <;> simp [rating_step, kpi_contrib, kpi_entry, rel_score_used, h]

-- Componentwise sums of the contributions over a list of configs.
noncomputable def totals (s v : String → Option ℝ) (L : List KPIConfig) : ℝ × ℝ × ℝ :=
  ((L.map fun c => (kpi_contrib s v c).1).sum,
   (L.map fun c => (kpi_contrib s v c).2.1).sum,
   (L.map fun c => (kpi_contrib s v c).2.2).sum)

lemma foldl_rating_step (s v : String → Option ℝ) (aw rw : ℝ) :
    ∀ (L : List KPIConfig) (acc : ℝ × ℝ × ℝ × List (String × KPIScoreEntry)),
      L.foldl (rating_step s v aw rw) acc =
        (acc.1 + (totals s v L).1,
         acc.2.1 + (totals s v L).2.1,
         acc.2.2.1 + (totals s v L).2.2,
         acc.2.2.2 ++ L.map fun c => (c.key, kpi_entry s v aw rw c))
  | [], acc => by simp [totals]
  | c :: L, acc => by
    rw [List.foldl_cons, rating_step_eq, foldl_rating_step s v aw rw L]
    simp [totals]
    refine ⟨by ring, by ring, by ring⟩

-- calculate_rating, rewritten through the loop decomposition.
lemma calculate_rating_eq (s v : String → Option ℝ) (aw rw : ℝ) :
    calculate_rating s v aw rw =
      { overall_rating := pyround 1 (1.0 +
          (aw * (if (totals s v KPI_CONFIGS).2.2 > 0
                 then (totals s v KPI_CONFIGS).1 / (totals s v KPI_CONFIGS).2.2
                 else (totals s v KPI_CONFIGS).1) +
           rw * (if (totals s v KPI_CONFIGS).2.2 > 0
                 then (totals s v KPI_CONFIGS).2.1 / (totals s v KPI_CONFIGS).2.2
                 else (totals s v KPI_CONFIGS).2.1)) * 9.0)
        absolute_score := pyround 1 (1.0 +
          (if (totals s v KPI_CONFIGS).2.2 > 0
           then (totals s v KPI_CONFIGS).1 / (totals s v KPI_CONFIGS).2.2
           else (totals s v KPI_CONFIGS).1) * 9.0)
        relative_score := pyround 1 (1.0 +
          (if (totals s v KPI_CONFIGS).2.2 > 0
           then (totals s v KPI_CONFIGS).2.1 / (totals s v KPI_CONFIGS).2.2
           else (totals s v KPI_CONFIGS).2.1) * 9.0)
        kpi_scores := KPI_CONFIGS.map fun c => (c.key, kpi_entry s v aw rw c) } := by
  rw [calculate_rating]
  rw [foldl_rating_step]
  simp

-- ### pyround evaluation and bounds ###

lemma round_eq_of_bounds (x : ℝ) (k : ℤ) (h1 : (k : ℝ) ≤ x + 1 / 2)
    (h2 : x + 1 / 2 < (k : ℝ) + 1) : round x = k := by
  rw [round_eq]
  exact Int.floor_eq_iff.mpr ⟨h1, by exact_mod_cast h2⟩

lemma pyround_eq (n : ℕ) (x : ℝ) (k : ℤ) (h1 : (k : ℝ) ≤ x * 10 ^ n + 1 / 2)
    (h2 : x * 10 ^ n + 1 / 2 < (k : ℝ) + 1) : pyround n x = (k : ℝ) / 10 ^ n := by
  rw [pyround, round_eq_of_bounds _ k h1 h2]

lemma round_mono_le {x y : ℝ} (h : x ≤ y) : round x ≤ round y := by
  rw [round_eq, round_eq]
  exact Int.floor_le_floor (by linarith)

lemma pyround1_mem_Icc {x : ℝ} (h1 : 1 ≤ x) (h2 : x ≤ 10) :
    1 ≤ pyround 1 x ∧ pyround 1 x ≤ 10 := by
  have hlo : (10 : ℤ) ≤ round (x * 10 ^ 1) := by
    have := round_mono_le (x := (10 : ℝ)) (y := x * 10 ^ 1) (by nlinarith)
    rwa [show ((10 : ℝ)) = ((10 : ℤ) : ℝ) by norm_num, round_intCast] at this
  have hhi : round (x * 10 ^ 1) ≤ (100 : ℤ) := by
    have := round_mono_le (x := x * 10 ^ 1) (y := (100 : ℝ)) (by nlinarith)
    rwa [show ((100 : ℝ)) = ((100 : ℤ) : ℝ) by norm_num, round_intCast] at this
  have hlo' : (10 : ℝ) ≤ ((round (x * 10 ^ 1) : ℤ) : ℝ) := by exact_mod_cast hlo
  have hhi' : ((round (x * 10 ^ 1) : ℤ) : ℝ) ≤ 100 := by exact_mod_cast hhi
  constructor
  · rw [pyround, le_div_iff₀ (by norm_num)]
    linarith
  · rw [pyround, div_le_iff₀ (by norm_num)]
    linarith

-- ### Bounds and monotonicity of the sub-scores ###

lemma score_absolute_lower_mono (cfg : KPIConfig) (hl : cfg.lower_is_better = true)
    (hbw : cfg.abs_best < cfg.abs_worst) {x y : ℝ} (hxy : x ≤ y) :
    score_absolute y cfg ≤ score_absolute x cfg := by
  have hd : 0 < cfg.abs_worst - cfg.abs_best := by linarith
  rw [score_absolute, score_absolute, hl]
  simp only [if_true]
  split_ifs with h1 h2 h3 h4 h5 h6 h7
  all_goals try linarith
  · have : (x - cfg.abs_best) / (cfg.abs_worst - cfg.abs_best) ≤ 1 :=
      (div_le_one hd).mpr (by linarith)
    linarith
  · have : 0 ≤ (y - cfg.abs_best) / (cfg.abs_worst - cfg.abs_best) :=
      div_nonneg (by linarith) (by linarith)
    linarith
  · have : (x - cfg.abs_best) / (cfg.abs_worst - cfg.abs_best) ≤
        (y - cfg.abs_best) / (cfg.abs_worst - cfg.abs_best) := by
      gcongr
    linarith

lemma score_absolute_higher_mono (cfg : KPIConfig) (hl : cfg.lower_is_better = false)
    (hwb : cfg.abs_worst < cfg.abs_best) {x y : ℝ} (hxy : x ≤ y) :
    score_absolute x cfg ≤ score_absolute y cfg := by
  have hd : 0 < cfg.abs_best - cfg.abs_worst := by linarith
  rw [score_absolute, score_absolute, hl]
  simp only [Bool.false_eq_true, if_false]
  split_ifs with h1 h2 h3 h4 h5 h6 h7
  all_goals try linarith
  · have : 0 ≤ (y - cfg.abs_worst) / (cfg.abs_best - cfg.abs_worst) :=
      div_nonneg (by linarith) (by linarith)
    linarith
  · have : (x - cfg.abs_worst) / (cfg.abs_best - cfg.abs_worst) ≤ 1 :=
      (div_le_one hd).mpr (by linarith)
    linarith
  · have : (x - cfg.abs_worst) / (cfg.abs_best - cfg.abs_worst) ≤
        (y - cfg.abs_worst) / (cfg.abs_best - cfg.abs_worst) := by
      gcongr
    linarith

lemma score_absolute_lower_range (cfg : KPIConfig) (hl : cfg.lower_is_better = true)
    (hbw : cfg.abs_best < cfg.abs_worst) (x : ℝ) :
    0 ≤ score_absolute x cfg ∧ score_absolute x cfg ≤ 1 := by
  have hd : 0 < cfg.abs_worst - cfg.abs_best := by linarith
  rw [score_absolute, hl]
  simp only [if_true]
  split_ifs with h1 h2
  · norm_num
  · norm_num
  · have hle : (x - cfg.abs_best) / (cfg.abs_worst - cfg.abs_best) ≤ 1 :=
      (div_le_one hd).mpr (by linarith)
    have hge : 0 ≤ (x - cfg.abs_best) / (cfg.abs_worst - cfg.abs_best) :=
      div_nonneg (by linarith) (by linarith)
    constructor <;> linarith

lemma score_absolute_higher_range (cfg : KPIConfig) (hl : cfg.lower_is_better = false)
    (hwb : cfg.abs_worst < cfg.abs_best) (x : ℝ) :
    0 ≤ score_absolute x cfg ∧ score_absolute x cfg ≤ 1 := by
  have hd : 0 < cfg.abs_best - cfg.abs_worst := by linarith
  rw [score_absolute, hl]
  simp only [Bool.false_eq_true, if_false]
  split_ifs with h1 h2
  · norm_num
  · norm_num
  · have hle : (x - cfg.abs_worst) / (cfg.abs_best - cfg.abs_worst) ≤ 1 :=
      (div_le_one hd).mpr (by linarith)
    have hge : 0 ≤ (x - cfg.abs_worst) / (cfg.abs_best - cfg.abs_worst) :=
      div_nonneg (by linarith) (by linarith)
    constructor <;> linarith

lemma score_relative_some (value avg : ℝ) (cfg : KPIConfig) (h : avg ≠ 0) :
    score_relative value (some avg) cfg =
      max 0.0 (min 1.0 (1.0 / (1.0 + Real.exp (-4.0 *
        (if cfg.lower_is_better then -((value - avg) / |avg|)
         else (value - avg) / |avg|))))) := by
  rw [score_relative]
  simp [h]

lemma score_relative_range (value : ℝ) (o : Option ℝ) (cfg : KPIConfig) :
    0 ≤ score_relative value o cfg ∧ score_relative value o cfg ≤ 1 := by
  cases o with
  | none => norm_num [score_relative]
  | some avg =>
    by_cases h : avg = 0
    · subst h
      norm_num [score_relative]
    · rw [score_relative_some _ _ _ h]
      constructor
      · exact le_trans (by norm_num) (le_max_left _ _)
      · exact max_le (by norm_num) (le_trans (min_le_left _ _) (by norm_num))

-- The catalog orients its bounds by the directionality flag and uses
-- positive weights.
lemma KPI_CONFIGS_oriented : ∀ cfg ∈ KPI_CONFIGS,
    (cfg.lower_is_better = true → cfg.abs_best < cfg.abs_worst) ∧
    (cfg.lower_is_better = false → cfg.abs_worst < cfg.abs_best) := by
  intro cfg h
  fin_cases h <;> norm_num

lemma KPI_CONFIGS_weight_pos : ∀ cfg ∈ KPI_CONFIGS, 0 < cfg.weight := by
  intro cfg h
  fin_cases h <;> norm_num

lemma score_absolute_range_of_mem {cfg : KPIConfig} (h : cfg ∈ KPI_CONFIGS) (x : ℝ) :
    0 ≤ score_absolute x cfg ∧ score_absolute x cfg ≤ 1 := by
  rcases KPI_CONFIGS_oriented cfg h with ⟨hlo, hhi⟩
  cases hb : cfg.lower_is_better with
  | true => exact score_absolute_lower_range cfg hb (hlo hb) x
  | false => exact score_absolute_higher_range cfg hb (hhi hb) x

lemma rel_score_used_range (sector : String → Option ℝ) (val : ℝ) (cfg : KPIConfig) :
    0 ≤ rel_score_used sector val cfg ∧ rel_score_used sector val cfg ≤ 1 := by
  rw [rel_score_used]
  cases sector cfg.key with
  | none => norm_num
  | some avg => exact score_relative_range val (some avg) cfg

-- ### Projection eval lemmas for calculate_rating ###

lemma overall_rating_eval (s v : String → Option ℝ) (aw rw : ℝ) :
    (calculate_rating s v aw rw).overall_rating =
      pyround 1 (1.0 +
        (aw * (if (totals s v KPI_CONFIGS).2.2 > 0
               then (totals s v KPI_CONFIGS).1 / (totals s v KPI_CONFIGS).2.2
               else (totals s v KPI_CONFIGS).1) +
         rw * (if (totals s v KPI_CONFIGS).2.2 > 0
               then (totals s v KPI_CONFIGS).2.1 / (totals s v KPI_CONFIGS).2.2
               else (totals s v KPI_CONFIGS).2.1)) * 9.0) := by
  rw [calculate_rating_eq]

lemma absolute_score_eval (s v : String → Option ℝ) (aw rw : ℝ) :
    (calculate_rating s v aw rw).absolute_score =
      pyround 1 (1.0 +
        (if (totals s v KPI_CONFIGS).2.2 > 0
         then (totals s v KPI_CONFIGS).1 / (totals s v KPI_CONFIGS).2.2
         else (totals s v KPI_CONFIGS).1) * 9.0) := by
  rw [calculate_rating_eq]

lemma relative_score_eval (s v : String → Option ℝ) (aw rw : ℝ) :
    (calculate_rating s v aw rw).relative_score =
      pyround 1 (1.0 +
        (if (totals s v KPI_CONFIGS).2.2 > 0
         then (totals s v KPI_CONFIGS).2.1 / (totals s v KPI_CONFIGS).2.2
         else (totals s v KPI_CONFIGS).2.1) * 9.0) := by
  rw [calculate_rating_eq]

lemma kpi_scores_eval (s v : String → Option ℝ) (aw rw : ℝ) :
    (calculate_rating s v aw rw).kpi_scores =
      KPI_CONFIGS.map fun c => (c.key, kpi_entry s v aw rw c) := by
  rw [calculate_rating_eq]

-- ### Lookup through an engine-built association list ###

lemma lookup_map_key {β : Type} (g : KPIConfig → β) :
    ∀ (L : List KPIConfig), (L.map fun c => c.key).Nodup →
      ∀ c ∈ L, (L.map fun c' => (c'.key, g c')).lookup c.key = some (g c) := by
  intro L
  induction L with
  | nil => intro _ c hc; simp at hc
  | cons a L ih =>
    intro hnd c hc
    simp only [List.map_cons, List.nodup_cons] at hnd
    rcases List.mem_cons.mp hc with rfl | hcL
    · simp [List.lookup]
    · have hne : a.key ≠ c.key := by
        intro he
        exact hnd.1 (he ▸ List.mem_map.mpr ⟨c, hcL, rfl⟩)
      have hbeq : (c.key == a.key) = false := beq_eq_false_iff_ne.mpr (Ne.symm hne)
      simp [List.lookup, hbeq, ih hnd.2 c hcL]

lemma KPI_CONFIGS_keys_nodup : (KPI_CONFIGS.map fun c => c.key).Nodup := by
  simp only [KPI_CONFIGS, List.map_cons, List.map_nil]
  decide

lemma dget_kpi_scores (s v : String → Option ℝ) (aw rw : ℝ) {cfg : KPIConfig}
    (h : cfg ∈ KPI_CONFIGS) :
    dget (calculate_rating s v aw rw).kpi_scores cfg.key =
      some (kpi_entry s v aw rw cfg) := by
  rw [kpi_scores_eval, dget]
  exact lookup_map_key _ _ KPI_CONFIGS_keys_nodup cfg h

-- The per-key aggregate value computed by compute_sector_averages.
noncomputable def sector_median (all_kpis : List (String → Option ℝ))
    (cfg : KPIConfig) : Option ℝ :=
  let values := all_kpis.filterMap fun kpi => kpi cfg.key
  match values with
  | [] => none
  | _ :: _ =>
    let sorted := List.insertionSort (· ≤ ·) values
    let mid := values.length / 2
    if values.length % 2 = 0 then
      some ((sorted.getD (mid - 1) 0 + sorted.getD mid 0) / 2)
    else
      some (sorted.getD mid 0)

lemma compute_sector_averages_eq (ps : List (String → Option ℝ)) :
    compute_sector_averages ps =
      KPI_CONFIGS.map fun cfg => (cfg.key, sector_median ps cfg) := by
  rw [compute_sector_averages]
  apply List.map_congr_left
  intro cfg _
  cases hv : ps.filterMap fun kpi => kpi cfg.key with
  | nil => simp [sector_median, hv]
  | cons a l =>
    simp only [sector_median, hv]
    split_ifs <;> rfl

lemma dget_compute_sector_averages (ps : List (String → Option ℝ)) {cfg : KPIConfig}
    (h : cfg ∈ KPI_CONFIGS) :
    dget (compute_sector_averages ps) cfg.key = some (sector_median ps cfg) := by
  rw [compute_sector_averages_eq, dget]
  exact lookup_map_key _ _ KPI_CONFIGS_keys_nodup cfg h

-- ### Numeric bounds for the exponential ###

lemma exp_two_bounds : 7.38 < Real.exp 2 ∧ Real.exp 2 < 7.4 := by
  have h1 := Real.exp_one_gt_d9
  have h2 := Real.exp_one_lt_d9
  have hp := Real.exp_pos 1
  have he : Real.exp 2 = Real.exp 1 * Real.exp 1 := by
    rw [← Real.exp_add]; norm_num
  constructor <;> rw [he] <;> nlinarith

lemma exp_four_bounds : 54.4 < Real.exp 4 ∧ Real.exp 4 < 54.8 := by
  obtain ⟨h1, h2⟩ := exp_two_bounds
  have hp := Real.exp_pos 2
  have he : Real.exp 4 = Real.exp 2 * Real.exp 2 := by
    rw [← Real.exp_add]; norm_num
  constructor <;> rw [he] <;> nlinarith

lemma exp_neg_two_bounds : 0.1351 < Real.exp (-2) ∧ Real.exp (-2) < 0.1356 := by
  obtain ⟨h1, h2⟩ := exp_two_bounds
  have hp := Real.exp_pos 2
  have hinv : Real.exp 2 * (Real.exp 2)⁻¹ = 1 := mul_inv_cancel₀ (ne_of_gt hp)
  have hinvpos : 0 < (Real.exp 2)⁻¹ := inv_pos.mpr hp
  rw [Real.exp_neg]
  constructor <;> nlinarith

lemma exp_neg_four_bounds : 0.0182 < Real.exp (-4) ∧ Real.exp (-4) < 0.0184 := by
  obtain ⟨h1, h2⟩ := exp_four_bounds
  have hp := Real.exp_pos 4
  have hinv : Real.exp 4 * (Real.exp 4)⁻¹ = 1 := mul_inv_cancel₀ (ne_of_gt hp)
  have hinvpos : 0 < (Real.exp 4)⁻¹ := inv_pos.mpr hp
  rw [Real.exp_neg]
  constructor <;> nlinarith

-- ### Totals lemmas ###

lemma totals_nil (s v : String → Option ℝ) : totals s v [] = (0, 0, 0) := by
  simp [totals]

lemma totals_cons (s v : String → Option ℝ) (a : KPIConfig) (L : List KPIConfig) :
    totals s v (a :: L) =
      ((kpi_contrib s v a).1 + (totals s v L).1,
       (kpi_contrib s v a).2.1 + (totals s v L).2.1,
       (kpi_contrib s v a).2.2 + (totals s v L).2.2) := by
  simp [totals]

lemma kpi_contrib_absent (s v : String → Option ℝ) {cfg : KPIConfig}
    (h : s cfg.key = none) : kpi_contrib s v cfg = (0, 0, 0) := by
  simp [kpi_contrib, h]

lemma totals_all_absent (s v : String → Option ℝ) :
    ∀ L : List KPIConfig, (∀ c ∈ L, s c.key = none) → totals s v L = (0, 0, 0) := by
  intro L
  induction L with
  | nil => intro _; exact totals_nil s v
  | cons a L ih =>
    intro h
    rw [totals_cons, ih fun c hc => h c (List.mem_cons_of_mem _ hc),
      kpi_contrib_absent s v (h a (List.mem_cons_self a L))]
    norm_num

lemma totals_single (s v : String → Option ℝ) :
    ∀ (L : List KPIConfig), (L.map fun c => c.key).Nodup →
      ∀ cfg ∈ L, (∀ c ∈ L, c.key ≠ cfg.key → s c.key = none) →
        totals s v L = kpi_contrib s v cfg := by
  intro L
  induction L with
  | nil => intro _ cfg hc; simp at hc
  | cons a L ih =>
    intro hnd cfg hcfg habs
    simp only [List.map_cons, List.nodup_cons] at hnd
    rcases List.mem_cons.mp hcfg with rfl | hcL
    · have hLz : ∀ c ∈ L, s c.key = none := by
        intro c hc
        refine habs c (List.mem_cons_of_mem _ hc) fun he => ?_
        exact hnd.1 (he ▸ List.mem_map.mpr ⟨c, hc, rfl⟩)
      rw [totals_cons, totals_all_absent s v L hLz]
      norm_num
    · have hane : a.key ≠ cfg.key := by
        intro he
        exact hnd.1 (he ▸ List.mem_map.mpr ⟨cfg, hcL, rfl⟩)
      rw [totals_cons, kpi_contrib_absent s v (habs a (List.mem_cons_self a L) hane),
        ih hnd.2 cfg hcL fun c hc hk => habs c (List.mem_cons_of_mem _ hc) hk]
      norm_num

lemma kpi_contrib_bounds (s v : String → Option ℝ) {cfg : KPIConfig}
    (h : cfg ∈ KPI_CONFIGS) :
    0 ≤ (kpi_contrib s v cfg).1 ∧
    (kpi_contrib s v cfg).1 ≤ (kpi_contrib s v cfg).2.2 ∧
    0 ≤ (kpi_contrib s v cfg).2.1 ∧
    (kpi_contrib s v cfg).2.1 ≤ (kpi_contrib s v cfg).2.2 ∧
    0 ≤ (kpi_contrib s v cfg).2.2 := by
  cases hv : s cfg.key with
  | none => simp [kpi_contrib, hv]
  | some val =>
    have hw := KPI_CONFIGS_weight_pos cfg h
    obtain ⟨ha0, ha1⟩ := score_absolute_range_of_mem h val
    obtain ⟨hr0, hr1⟩ := rel_score_used_range v val cfg
    simp only [kpi_contrib, hv]
    refine ⟨mul_nonneg ha0 (le_of_lt hw), ?_, mul_nonneg hr0 (le_of_lt hw), ?_, le_of_lt hw⟩
    · nlinarith
    · nlinarith

lemma totals_bounds (s v : String → Option ℝ) :
    ∀ L : List KPIConfig, (∀ c ∈ L, c ∈ KPI_CONFIGS) →
      0 ≤ (totals s v L).1 ∧ (totals s v L).1 ≤ (totals s v L).2.2 ∧
      0 ≤ (totals s v L).2.1 ∧ (totals s v L).2.1 ≤ (totals s v L).2.2 ∧
      0 ≤ (totals s v L).2.2 := by
  intro L
  induction L with
  | nil => intro _; norm_num [totals]
  | cons a L ih =>
    intro h
    obtain ⟨ha1, ha2, ha3, ha4, ha5⟩ := kpi_contrib_bounds s v (h a (List.mem_cons_self a L))
    obtain ⟨hb1, hb2, hb3, hb4, hb5⟩ := ih fun c hc => h c (List.mem_cons_of_mem _ hc)
    rw [totals_cons]
    dsimp only
    refine ⟨by linarith, by linarith, by linarith, by linarith, by linarith⟩

-- ### Concrete inputs used by witnesses and scenario theorems ###

noncomputable def cfg_trailingPE : KPIConfig :=
  ⟨"trailingPE", "P/E Ratio (TTM)", 0.15, true, 5.0, 60.0, false, 2⟩

lemma cfg_trailingPE_mem : cfg_trailingPE ∈ KPI_CONFIGS := by
  rw [KPI_CONFIGS, cfg_trailingPE]
  exact List.mem_cons_self _ _

-- A stock map with exactly one present catalog KPI.
noncomputable def stock_single : String → Option ℝ :=
  fun k => if k = "trailingPE" then some 10.0 else none

-- A map with every key absent.
noncomputable def map_empty : String → Option ℝ := fun _ => none

-- ### Claim theorems ###

/-- C5: for every catalog KPI definition, score_absolute is non-increasing in
the value for lower-is-better KPIs, non-decreasing for higher-is-better KPIs,
and always lies in [0, 1]. -/
theorem C5_score_absolute_monotone (cfg : KPIConfig) (h : cfg ∈ KPI_CONFIGS) :
    (∀ x y : ℝ, x ≤ y →
      (cfg.lower_is_better = true → score_absolute y cfg ≤ score_absolute x cfg) ∧
      (cfg.lower_is_better = false → score_absolute x cfg ≤ score_absolute y cfg)) ∧
    (∀ x : ℝ, 0 ≤ score_absolute x cfg ∧ score_absolute x cfg ≤ 1) := by
  obtain ⟨hlo, hhi⟩ := KPI_CONFIGS_oriented cfg h
  exact ⟨fun x y hxy =>
    ⟨fun hb => score_absolute_lower_mono cfg hb (hlo hb) hxy,
     fun hb => score_absolute_higher_mono cfg hb (hhi hb) hxy⟩,
    fun x => score_absolute_range_of_mem h x⟩

theorem C5_witness :
    score_absolute 2 cfg_trailingPE ≤ score_absolute 1 cfg_trailingPE ∧
    (0 ≤ score_absolute 7 cfg_trailingPE ∧ score_absolute 7 cfg_trailingPE ≤ 1) :=
  ⟨((C5_score_absolute_monotone cfg_trailingPE cfg_trailingPE_mem).1 1 2
      (by norm_num)).1 rfl,
   (C5_score_absolute_monotone cfg_trailingPE cfg_trailingPE_mem).2 7⟩

/-- C6: for every catalog KPI definition, score_absolute maps abs_best to
exactly 1.0 and abs_worst to exactly 0.0. -/
theorem C6_endpoints (cfg : KPIConfig) (h : cfg ∈ KPI_CONFIGS) :
    score_absolute cfg.abs_best cfg = 1.0 ∧ score_absolute cfg.abs_worst cfg = 0.0 := by
  fin_cases h <;> constructor <;> norm_num [score_absolute]

theorem C6_witness :
    score_absolute cfg_trailingPE.abs_best cfg_trailingPE = 1.0 ∧
    score_absolute cfg_trailingPE.abs_worst cfg_trailingPE = 0.0 :=
  C6_endpoints cfg_trailingPE cfg_trailingPE_mem

/-- C7: the relative sub-score is exactly 0.5 when the sector average is
absent or exactly zero (the division is guarded, never performed), and a
stock value exactly equal to any nonzero sector average also scores 0.5. -/
theorem C7_neutral_relative (value : ℝ) (cfg : KPIConfig) :
    score_relative value none cfg = 0.5 ∧
    score_relative value (some 0) cfg = 0.5 ∧
    ∀ avg : ℝ, avg ≠ 0 → score_relative avg (some avg) cfg = 0.5 := by
  refine ⟨rfl, by norm_num [score_relative], fun avg h => ?_⟩
  rw [score_relative_some _ _ _ h]
  have h0 : (avg - avg) / |avg| = 0 := by simp
  rw [h0]
  have h1 : (if cfg.lower_is_better then -(0:ℝ) else (0:ℝ)) = 0 := by
    split_ifs <;> norm_num
  rw [h1]
  norm_num [Real.exp_zero, min_def, max_def]

theorem C7_witness :
    score_relative 3 none cfg_trailingPE = 0.5 ∧
    score_relative 2 (some 2) cfg_trailingPE = 0.5 :=
  ⟨(C7_neutral_relative 3 cfg_trailingPE).1,
   (C7_neutral_relative 2 cfg_trailingPE).2.2 2 (by norm_num)⟩

/-- C8: if every catalog KPI is absent in the stock map, the three raw
aggregates stay at 0 and the overall rating is exactly 1.0. -/
theorem C8_all_absent (stock sector : String → Option ℝ) (aw rw : ℝ)
    (h : ∀ cfg ∈ KPI_CONFIGS, stock cfg.key = none) :
    totals stock sector KPI_CONFIGS = (0, 0, 0) ∧
    (calculate_rating stock sector aw rw).overall_rating = 1.0 := by
  have ht := totals_all_absent stock sector KPI_CONFIGS h
  refine ⟨ht, ?_⟩
  rw [overall_rating_eval, ht]
  norm_num
  rw [pyround_eq 1 1 10 (by norm_num) (by norm_num)]
  norm_num

theorem C8_witness :
    totals map_empty map_empty KPI_CONFIGS = (0, 0, 0) ∧
    (calculate_rating map_empty map_empty 0.40 0.60).overall_rating = 1.0 :=
  C8_all_absent map_empty map_empty 0.40 0.60 (fun _ _ => rfl)

/-- C2: if exactly one catalog KPI is present in the stock map, the overall
rating equals round(1 + (0.40·a + 0.60·r)·9, 1) for the unrounded
absolute score a and relative score r of that KPI, independently of its catalog
weight (it cancels in the renormalization). -/
theorem C2_single_kpi_renormalization (stock sector : String → Option ℝ)
    (cfg : KPIConfig) (val : ℝ) (hmem : cfg ∈ KPI_CONFIGS)
    (hv : stock cfg.key = some val)
    (habs : ∀ c ∈ KPI_CONFIGS, c.key ≠ cfg.key → stock c.key = none) :
    (calculate_rating stock sector 0.40 0.60).overall_rating =
      pyround 1 (1 + (0.40 * score_absolute val cfg +
        0.60 * rel_score_used sector val cfg) * 9) := by
  have ht := totals_single stock sector KPI_CONFIGS KPI_CONFIGS_keys_nodup cfg hmem habs
  have hw := KPI_CONFIGS_weight_pos cfg hmem
  have hne : cfg.weight ≠ 0 := ne_of_gt hw
  rw [overall_rating_eval, ht]
  simp only [kpi_contrib, hv]
  simp only [if_pos hw]
  congr 1
  field_simp
  ring

theorem C2_witness :
    (calculate_rating stock_single map_empty 0.40 0.60).overall_rating =
      pyround 1 (1 + (0.40 * score_absolute 10.0 cfg_trailingPE +
        0.60 * rel_score_used map_empty 10.0 cfg_trailingPE) * 9) :=
  C2_single_kpi_renormalization stock_single map_empty cfg_trailingPE 10.0
    cfg_trailingPE_mem (by norm_num [stock_single, cfg_trailingPE])
    (by
      intro c hc hk
      fin_cases hc <;> simp_all [stock_single, cfg_trailingPE])

/-- C4: the per-KPI score entry is the all-absent triple exactly when the stock
value is absent; a present stock value with an absent sector average yields a
present neutral relative score 0.5; and an absent-value KPI contributes zero
to both weighted sums and to the total weight. -/
theorem C4_absent_kpi_handling (stock sector : String → Option ℝ) (aw rw : ℝ)
    (cfg : KPIConfig) (hmem : cfg ∈ KPI_CONFIGS) :
    (dget (calculate_rating stock sector aw rw).kpi_scores cfg.key =
        some ⟨none, none, none⟩ ↔ stock cfg.key = none) ∧
    (∀ val : ℝ, stock cfg.key = some val → sector cfg.key = none →
      dget (calculate_rating stock sector aw rw).kpi_scores cfg.key =
        some ⟨some (pyround 3 (score_absolute val cfg)), some 0.5,
          some (pyround 3 (aw * score_absolute val cfg + rw * 0.5))⟩) ∧
    (stock cfg.key = none →
      kpi_contrib stock sector cfg = (0, 0, 0) ∧
      ∀ acc : ℝ × ℝ × ℝ × List (String × KPIScoreEntry),
        (rating_step stock sector aw rw acc cfg).1 = acc.1 ∧
        (rating_step stock sector aw rw acc cfg).2.1 = acc.2.1 ∧
        (rating_step stock sector aw rw acc cfg).2.2.1 = acc.2.2.1) := by
  rw [dget_kpi_scores stock sector aw rw hmem]
  refine ⟨?_, ?_, ?_⟩
  · cases hv : stock cfg.key with
    | none => simp [kpi_entry, hv]
    | some val => simp [kpi_entry, hv]
  · intro val hv hsec
    have h05 : pyround 3 (0.5 : ℝ) = 0.5 := by
      rw [pyround_eq 3 0.5 500 (by norm_num) (by norm_num)]
      norm_num
    simp [kpi_entry, hv, rel_score_used, hsec, h05]
  · intro hv
    exact ⟨kpi_contrib_absent stock sector hv, fun acc => by simp [rating_step, hv]⟩

theorem C4_witness :
    dget (calculate_rating stock_single map_empty 0.4 0.6).kpi_scores cfg_trailingPE.key =
      some ⟨some (pyround 3 (score_absolute 10.0 cfg_trailingPE)), some 0.5,
        some (pyround 3 (0.4 * score_absolute 10.0 cfg_trailingPE + 0.6 * 0.5))⟩ :=
  (C4_absent_kpi_handling stock_single map_empty 0.4 0.6 cfg_trailingPE
      cfg_trailingPE_mem).2.1 10.0 (by norm_num [stock_single, cfg_trailingPE]) rfl

/-- C9: with the default weights 0.40/0.60, the overall, absolute and
relative scores returned by calculate_rating all lie in [1, 10]. -/
theorem C9_result_range (stock sector : String → Option ℝ) :
    (1 ≤ (calculate_rating stock sector 0.40 0.60).overall_rating ∧
      (calculate_rating stock sector 0.40 0.60).overall_rating ≤ 10) ∧
    (1 ≤ (calculate_rating stock sector 0.40 0.60).absolute_score ∧
      (calculate_rating stock sector 0.40 0.60).absolute_score ≤ 10) ∧
    (1 ≤ (calculate_rating stock sector 0.40 0.60).relative_score ∧
      (calculate_rating stock sector 0.40 0.60).relative_score ≤ 10) := by
  obtain ⟨h1, h2, h3, h4, h5⟩ := totals_bounds stock sector KPI_CONFIGS (fun c hc => hc)
  rw [overall_rating_eval, absolute_score_eval, relative_score_eval]
  by_cases hpos : (totals stock sector KPI_CONFIGS).2.2 > 0
  · simp only [if_pos hpos]
    have hA0 : 0 ≤ (totals stock sector KPI_CONFIGS).1 /
        (totals stock sector KPI_CONFIGS).2.2 := div_nonneg h1 (le_of_lt hpos)
    have hA1 : (totals stock sector KPI_CONFIGS).1 /
        (totals stock sector KPI_CONFIGS).2.2 ≤ 1 := (div_le_one hpos).mpr h2
    have hR0 : 0 ≤ (totals stock sector KPI_CONFIGS).2.1 /
        (totals stock sector KPI_CONFIGS).2.2 := div_nonneg h3 (le_of_lt hpos)
    have hR1 : (totals stock sector KPI_CONFIGS).2.1 /
        (totals stock sector KPI_CONFIGS).2.2 ≤ 1 := (div_le_one hpos).mpr h4
    exact ⟨pyround1_mem_Icc (by nlinarith) (by nlinarith),
           pyround1_mem_Icc (by nlinarith) (by nlinarith),
           pyround1_mem_Icc (by nlinarith) (by nlinarith)⟩
  · simp only [if_neg hpos]
    have hz : (totals stock sector KPI_CONFIGS).2.2 = 0 :=
      le_antisymm (not_lt.mp hpos) h5
    have hz1 : (totals stock sector KPI_CONFIGS).1 = 0 :=
      le_antisymm (hz ▸ h2) h1
    have hz2 : (totals stock sector KPI_CONFIGS).2.1 = 0 :=
      le_antisymm (hz ▸ h4) h3
    rw [hz1, hz2]
    exact ⟨pyround1_mem_Icc (by norm_num) (by norm_num),
           pyround1_mem_Icc (by norm_num) (by norm_num),
           pyround1_mem_Icc (by norm_num) (by norm_num)⟩

-- A peer stock map reporting only trailingPE.
noncomputable def peer_pe (x : ℝ) : String → Option ℝ :=
  fun k => if k = "trailingPE" then some x else none

/-- C3: for every peer collection and catalog key, compute_sector_averages
stores the statistical median of the present peer values (middle element of
the ascending sort for an odd count, average of the two middle elements for
an even count), absent exactly when no peer reports the KPI; in particular
[10, 20, 30] yields 20 and [10, 20, 30, 40] yields 25. -/
theorem C3_sector_median :
    (∀ (all_kpis : List (String → Option ℝ)) (cfg : KPIConfig), cfg ∈ KPI_CONFIGS →
      dget (compute_sector_averages all_kpis) cfg.key =
        some (sector_median all_kpis cfg) ∧
      (sector_median all_kpis cfg = none ↔
        (all_kpis.filterMap fun kpi => kpi cfg.key) = []) ∧
      (∀ sorted_vals : List ℝ,
        sorted_vals.Perm (all_kpis.filterMap fun kpi => kpi cfg.key) →
        sorted_vals.Sorted (· ≤ ·) → sorted_vals ≠ [] →
        sector_median all_kpis cfg =
          some (if sorted_vals.length % 2 = 0 then
            (sorted_vals.getD (sorted_vals.length / 2 - 1) 0 +
              sorted_vals.getD (sorted_vals.length / 2) 0) / 2
          else sorted_vals.getD (sorted_vals.length / 2) 0))) ∧
    dget (compute_sector_averages [peer_pe 10, peer_pe 20, peer_pe 30]) "trailingPE" =
      some (some 20) ∧
    dget (compute_sector_averages [peer_pe 10, peer_pe 20, peer_pe 30, peer_pe 40])
      "trailingPE" = some (some 25) := by
  refine ⟨?_, ?_, ?_⟩
  · intro all_kpis cfg hmem
    refine ⟨dget_compute_sector_averages all_kpis hmem, ?_, ?_⟩
    · cases hval : (all_kpis.filterMap fun kpi => kpi cfg.key) with
      | nil => simp [sector_median, hval]
      | cons a l =>
        simp only [sector_median, hval]
        split_ifs <;> simp
    · intro sorted_vals hperm hsorted hne
      have hv : (all_kpis.filterMap fun kpi => kpi cfg.key) ≠ [] := by
        intro h
        rw [h] at hperm
        exact hne hperm.eq_nil
      have hs : sorted_vals = List.insertionSort (· ≤ ·)
          (all_kpis.filterMap fun kpi => kpi cfg.key) :=
        List.eq_of_perm_of_sorted
          (hperm.trans (List.perm_insertionSort _ _).symm) hsorted
          (List.sorted_insertionSort _ _)
      cases hval : (all_kpis.filterMap fun kpi => kpi cfg.key) with
      | nil => exact absurd hval hv
      | cons a l =>
        simp only [sector_median, hval]
        rw [hs, hval]
        simp only [List.length_insertionSort]
        split_ifs <;> rfl
  · have hval : List.filterMap (fun kpi => kpi "trailingPE")
        [peer_pe 10, peer_pe 20, peer_pe 30] = [10, 20, 30] := by
      simp [peer_pe, List.filterMap_cons]
    have h3 := dget_compute_sector_averages
      [peer_pe 10, peer_pe 20, peer_pe 30] cfg_trailingPE_mem
    rw [show cfg_trailingPE.key = "trailingPE" from rfl] at h3
    rw [h3]
    simp only [sector_median, show cfg_trailingPE.key = "trailingPE" from rfl, hval]
    norm_num [List.insertionSort, List.orderedInsert, List.getD]
  · have hval : List.filterMap (fun kpi => kpi "trailingPE")
        [peer_pe 10, peer_pe 20, peer_pe 30, peer_pe 40] = [10, 20, 30, 40] := by
      simp [peer_pe, List.filterMap_cons]
    have h4 := dget_compute_sector_averages
      [peer_pe 10, peer_pe 20, peer_pe 30, peer_pe 40] cfg_trailingPE_mem
    rw [show cfg_trailingPE.key = "trailingPE" from rfl] at h4
    rw [h4]
    simp only [sector_median, show cfg_trailingPE.key = "trailingPE" from rfl, hval]
    norm_num [List.insertionSort, List.orderedInsert, List.getD]

theorem C3_witness :
    dget (compute_sector_averages [peer_pe 10, peer_pe 20, peer_pe 30])
        cfg_trailingPE.key =
      some (sector_median [peer_pe 10, peer_pe 20, peer_pe 30] cfg_trailingPE) :=
  (C3_sector_median.1 [peer_pe 10, peer_pe 20, peer_pe 30] cfg_trailingPE
    cfg_trailingPE_mem).1

-- A stock map whose only binding is at the non-catalog key "_ticker"
-- (the data layer stores the peer ticker symbol under this key).
noncomputable def stock_with_ticker : String → Option ℝ :=
  fun k => if k = "_ticker" then some 1 else none

/-- C10: non-catalog keys are inert — stock/sector maps that agree on the
catalog keys produce identical ratings, peer collections that agree pairwise
on the catalog keys produce identical aggregates, and kpi_scores carries
exactly the keys of the catalog. -/
theorem C10_noninterference :
    (∀ (s1 s2 v1 v2 : String → Option ℝ) (aw rw : ℝ),
      (∀ cfg ∈ KPI_CONFIGS, s1 cfg.key = s2 cfg.key) →
      (∀ cfg ∈ KPI_CONFIGS, v1 cfg.key = v2 cfg.key) →
      calculate_rating s1 v1 aw rw = calculate_rating s2 v2 aw rw) ∧
    (∀ ps1 ps2 : List (String → Option ℝ),
      List.Forall₂ (fun p q => ∀ cfg ∈ KPI_CONFIGS, p cfg.key = q cfg.key) ps1 ps2 →
      compute_sector_averages ps1 = compute_sector_averages ps2) ∧
    (∀ (stock sector : String → Option ℝ) (aw rw : ℝ),
      (calculate_rating stock sector aw rw).kpi_scores.map Prod.fst =
        KPI_CONFIGS.map fun cfg => cfg.key) := by
  refine ⟨?_, ?_, ?_⟩
  · intro s1 s2 v1 v2 aw rw hs hv
    have hcon : ∀ c ∈ KPI_CONFIGS, kpi_contrib s1 v1 c = kpi_contrib s2 v2 c := by
      intro c hc
      simp only [kpi_contrib, rel_score_used, hs c hc, hv c hc]
    have hent : ∀ c ∈ KPI_CONFIGS,
        kpi_entry s1 v1 aw rw c = kpi_entry s2 v2 aw rw c := by
      intro c hc
      simp only [kpi_entry, rel_score_used, hs c hc, hv c hc]
    have m1 : (KPI_CONFIGS.map fun c => (kpi_contrib s1 v1 c).1) =
        KPI_CONFIGS.map fun c => (kpi_contrib s2 v2 c).1 :=
      List.map_congr_left fun c hc => by rw [hcon c hc]
    have m2 : (KPI_CONFIGS.map fun c => (kpi_contrib s1 v1 c).2.1) =
        KPI_CONFIGS.map fun c => (kpi_contrib s2 v2 c).2.1 :=
      List.map_congr_left fun c hc => by rw [hcon c hc]
    have m3 : (KPI_CONFIGS.map fun c => (kpi_contrib s1 v1 c).2.2) =
        KPI_CONFIGS.map fun c => (kpi_contrib s2 v2 c).2.2 :=
      List.map_congr_left fun c hc => by rw [hcon c hc]
    have htot : totals s1 v1 KPI_CONFIGS = totals s2 v2 KPI_CONFIGS := by
      unfold totals
      rw [m1, m2, m3]
    have hmap : (KPI_CONFIGS.map fun c => (c.key, kpi_entry s1 v1 aw rw c)) =
        KPI_CONFIGS.map fun c => (c.key, kpi_entry s2 v2 aw rw c) :=
      List.map_congr_left fun c hc => by rw [hent c hc]
    rw [calculate_rating_eq, calculate_rating_eq, htot, hmap]
  · intro ps1 ps2 hps
    have hvals : ∀ cfg ∈ KPI_CONFIGS,
        (ps1.filterMap fun kpi => kpi cfg.key) =
          (ps2.filterMap fun kpi => kpi cfg.key) := by
      intro cfg hc
      induction hps with
      | nil => rfl
      | cons h1 h2 ih => simp [List.filterMap_cons, h1 cfg hc, ih]
    have hmed : ∀ cfg ∈ KPI_CONFIGS, sector_median ps1 cfg = sector_median ps2 cfg := by
      intro cfg hc
      simp only [sector_median]
      rw [hvals cfg hc]
    rw [compute_sector_averages_eq, compute_sector_averages_eq]
    exact List.map_congr_left fun c hc => by rw [hmed c hc]
  · intro stock sector aw rw
    rw [kpi_scores_eval, List.map_map]
    rfl

theorem C10_witness :
    calculate_rating stock_with_ticker map_empty 0.4 0.6 =
      calculate_rating map_empty map_empty 0.4 0.6 :=
  C10_noninterference.1 stock_with_ticker map_empty map_empty map_empty 0.4 0.6
    (by intro cfg hc; fin_cases hc <;> simp [stock_with_ticker, map_empty])
    (fun _ _ => rfl)

-- ### C1 end-to-end scenario inputs and evaluations ###

noncomputable def stock_C1 : String → Option ℝ :=
  fun k => if k = "trailingPE" then some 10.0
    else if k = "returnOnEquity" then some 0.20 else none

noncomputable def sector_C1 : String → Option ℝ :=
  fun k => if k = "trailingPE" then some 20.0
    else if k = "returnOnEquity" then some 0.15 else none

lemma score_absolute_C1 :
    score_absolute 10.0 cfg_trailingPE = 1.0 - (10.0 - 5.0) / (60.0 - 5.0) := by
  rw [score_absolute]
  norm_num [cfg_trailingPE]

lemma score_relative_C1 :
    score_relative 10.0 (some 20.0) cfg_trailingPE = 1.0 / (1.0 + Real.exp (-2)) := by
  rw [score_relative_some _ _ _ (by norm_num)]
  have harg : (if cfg_trailingPE.lower_is_better
      then -(((10.0:ℝ) - 20.0) / |(20.0:ℝ)|)
      else ((10.0:ℝ) - 20.0) / |(20.0:ℝ)|) = (1/2 : ℝ) := by
    rw [show cfg_trailingPE.lower_is_better = true from rfl]
    rw [abs_of_pos (by norm_num : (0:ℝ) < 20.0)]
    norm_num
  rw [harg]
  rw [show (-4.0:ℝ) * (1/2) = -2 by norm_num]
  have hxp : (0:ℝ) < Real.exp (-2) := Real.exp_pos _
  have h1 : (1 + Real.exp (-2))⁻¹ ≤ (1:ℝ) := inv_le_one_of_one_le₀ (by linarith)
  have h0 : (0:ℝ) ≤ (1 + Real.exp (-2))⁻¹ := inv_nonneg.mpr (by linarith)
  norm_num
  rw [min_eq_right h1, max_eq_right h0]

lemma s2_lb : (0.8805:ℝ) ≤ 1.0 / (1.0 + Real.exp (-2)) := by
  obtain ⟨h1, h2⟩ := exp_neg_two_bounds
  rw [le_div_iff₀ (by linarith)]
  linarith

lemma s2_ub : 1.0 / (1.0 + Real.exp (-2)) < 0.8812 := by
  obtain ⟨h1, h2⟩ := exp_neg_two_bounds
  rw [div_lt_iff₀ (by linarith)]
  linarith

lemma s4_lb : (0.9815:ℝ) ≤ 1.0 / (1.0 + Real.exp (-4)) := by
  obtain ⟨h1, h2⟩ := exp_neg_four_bounds
  rw [le_div_iff₀ (by linarith)]
  linarith

lemma s4_ub : 1.0 / (1.0 + Real.exp (-4)) < 0.9825 := by
  obtain ⟨h1, h2⟩ := exp_neg_four_bounds
  rw [div_lt_iff₀ (by linarith)]
  linarith

lemma abs_round_C1 : pyround 3 (score_absolute 10.0 cfg_trailingPE) = 909 / 1000 := by
  rw [score_absolute_C1, pyround_eq 3 _ 909 (by norm_num) (by norm_num)]
  norm_num

lemma rel_round_C1 :
    pyround 3 (score_relative 10.0 (some 20.0) cfg_trailingPE) = 881 / 1000 := by
  have hlb := s2_lb
  have hub := s2_ub
  norm_num at hlb hub
  rw [score_relative_C1,
    pyround_eq 3 _ 881 (by norm_num; linarith) (by norm_num; linarith)]
  norm_num

lemma comb_round_C1 :
    pyround 3 (0.40 * score_absolute 10.0 cfg_trailingPE +
      0.60 * score_relative 10.0 (some 20.0) cfg_trailingPE) = 892 / 1000 := by
  have hlb := s2_lb
  have hub := s2_ub
  norm_num at hlb hub
  rw [score_absolute_C1, score_relative_C1,
    pyround_eq 3 _ 892 (by norm_num; linarith) (by norm_num; linarith)]
  norm_num

lemma entry_C1 : kpi_entry stock_C1 sector_C1 0.40 0.60 cfg_trailingPE =
    ⟨some (909 / 1000), some (881 / 1000), some (892 / 1000)⟩ := by
  have hv : stock_C1 cfg_trailingPE.key = some 10.0 := by
    norm_num [stock_C1, cfg_trailingPE]
  have hs : sector_C1 cfg_trailingPE.key = some 20.0 := by
    norm_num [sector_C1, cfg_trailingPE]
  simp only [kpi_entry, hv, rel_score_used, hs]
  rw [abs_round_C1, rel_round_C1, comb_round_C1]

/-- C1 counterexample: in the specified end-to-end scenario the computed
trailingPE relative score is NOT 1/(1+e^(-4·1.0)) ≈ 0.982 — the produced
entry is (0.909, 0.881, 0.892), the claimed relative value rounds to 0.982
and the claimed combined value 0.953 differs from the produced 0.892. -/
theorem C1_counterexample :
    score_relative 10.0 (some 20.0) cfg_trailingPE ≠
      1.0 / (1.0 + Real.exp (-4.0 * 1.0)) ∧
    dget (calculate_rating stock_C1 sector_C1 0.40 0.60).kpi_scores "trailingPE" =
      some ⟨some (909 / 1000), some (881 / 1000), some (892 / 1000)⟩ ∧
    pyround 3 (1.0 / (1.0 + Real.exp (-4.0 * 1.0))) = 982 / 1000 ∧
    ((881:ℝ) / 1000 ≠ 982 / 1000 ∧ (892:ℝ) / 1000 ≠ 953 / 1000) := by
  have hm4 : (-4.0:ℝ) * 1.0 = -4 := by norm_num
  refine ⟨?_, ?_, ?_, by norm_num, by norm_num⟩
  · intro he
    rw [score_relative_C1, hm4] at he
    have hub := s2_ub
    rw [he] at hub
    have hlb := s4_lb
    linarith
  · have h := dget_kpi_scores stock_C1 sector_C1 0.40 0.60 cfg_trailingPE_mem
    rw [show cfg_trailingPE.key = "trailingPE" from rfl] at h
    rw [h, entry_C1]
  · have hlb := s4_lb
    have hub := s4_ub
    norm_num at hlb hub
    rw [hm4, pyround_eq 3 _ 982 (by norm_num; linarith) (by norm_num; linarith)]
    norm_num

/-- C1 (amended): in the end-to-end scenario the trailingPE absolute score is
1 - (10-5)/(60-5) ≈ 0.909, the relative score is 1/(1+e^(-4·0.5)) ≈ 0.881
(the lower-is-better negation of the -50% deviation gives +0.5, not +1.0),
and the produced entry is (0.909, 0.881, 0.892) with combined
0.40·0.909... + 0.60·0.8808... ≈ 0.892. -/
theorem C1_amended_scenario :
    score_absolute 10.0 cfg_trailingPE = 1.0 - (10.0 - 5.0) / (60.0 - 5.0) ∧
    score_relative 10.0 (some 20.0) cfg_trailingPE =
      1.0 / (1.0 + Real.exp (-4.0 * 0.5)) ∧
    dget (calculate_rating stock_C1 sector_C1 0.40 0.60).kpi_scores "trailingPE" =
      some ⟨some (909 / 1000), some (881 / 1000), some (892 / 1000)⟩ := by
  refine ⟨score_absolute_C1, ?_, ?_⟩
  · rw [score_relative_C1]
    norm_num
  · have h := dget_kpi_scores stock_C1 sector_C1 0.40 0.60 cfg_trailingPE_mem
    rw [show cfg_trailingPE.key = "trailingPE" from rfl] at h
    rw [h, entry_C1]

theorem C9_witness :
    (1 ≤ (calculate_rating stock_single map_empty 0.40 0.60).overall_rating ∧
      (calculate_rating stock_single map_empty 0.40 0.60).overall_rating ≤ 10) ∧
    (1 ≤ (calculate_rating stock_single map_empty 0.40 0.60).absolute_score ∧
      (calculate_rating stock_single map_empty 0.40 0.60).absolute_score ≤ 10) ∧
    (1 ≤ (calculate_rating stock_single map_empty 0.40 0.60).relative_score ∧
      (calculate_rating stock_single map_empty 0.40 0.60).relative_score ≤ 10) :=
  C9_result_range stock_single map_empty
